import Mathlib

/-!
# Verification of the rtb protocol library

A shallow embedding of the rtb package (RealTimeBattle robot support
library). Go strings are modelled as `List Char`; the byte length of a
string (Go `len`) is the sum of the UTF-8 sizes of its characters.
`float64` values that only flow through the decoder are represented by
their validated literal token; `float64` command arguments are modelled
as rationals. Fallible operations return `Except`/`Option`.
-/

deriving instance DecidableEq for Except

namespace RTB

/-! ## Tokenization (strings.TrimSpace / strings.Fields) -/

/-- The whitespace predicate used by `strings.Fields` and
`strings.TrimSpace` (`unicode.IsSpace`), restricted to its ASCII part,
which is all the protocol uses. -/
def isSpace (c : Char) : Bool :=
  c == ' ' || c == '\t' || c == '\n' || c == '\x0b' || c == '\x0c' || c == '\r'

/-- `strings.TrimSpace`: drop whitespace from both ends. -/
def trimSpace (l : List Char) : List Char :=
  ((l.dropWhile isSpace).reverse.dropWhile isSpace).reverse

/-- `strings.Fields`: split around runs of whitespace, keeping only the
non-empty tokens. -/
def fields (l : List Char) : List (List Char) :=
  (l.splitOnP isSpace).filter (fun t => !t.isEmpty)

/-! ## Numeric token parsing (strconv) -/

/-- Numeric value of a decimal digit character. -/
def digitVal (c : Char) : Nat := c.toNat - 48

/-- Decimal value of a digit string. -/
def natOfDigits (l : List Char) : Nat :=
  l.foldl (fun n c => 10 * n + digitVal c) 0

/-- Non-empty string of decimal digits. -/
def decDigits (l : List Char) : Bool := !l.isEmpty && l.all Char.isDigit

/-- Strip one leading sign character, as `strconv` does. -/
def stripSign : List Char → List Char
  | '+' :: r => r
  | '-' :: r => r
  | r => r

/-- `strconv.ParseInt(s, 10, 0)`: optional sign, non-empty decimal
digits, value restricted to the 64-bit signed range (the `bitSize 0`
platform int). -/
def goParseInt (t : List Char) : Option Int :=
  match t with
  | [] => none
  | c :: r =>
    let neg := c == '-'
    let ds := if c == '-' || c == '+' then r else c :: r
    if decDigits ds then
      let v : Int := if neg then -(natOfDigits ds : Int) else (natOfDigits ds : Int)
      if -(2 ^ 63) ≤ v ∧ v < 2 ^ 63 then some v else none
    else none

/-- Well-formed mantissa of a decimal floating-point literal:
`digits [. digits*]` or `. digits+`. -/
def mantissaOk (m : List Char) : Bool :=
  match m.splitOnP (fun c => c == '.') with
  | [d] => decDigits d
  | [d1, d2] => !(d1 ++ d2).isEmpty && d1.all Char.isDigit && d2.all Char.isDigit
  | _ => false

/-- Well-formed exponent part: optional sign and non-empty digits. -/
def exponentOk (e : List Char) : Bool := decDigits (stripSign e)

/-- Syntactic validity per `strconv.ParseFloat(s, 64)`: optional sign,
then a case-insensitive special value (`inf`, `infinity`, `nan`) or a
decimal mantissa with optional `e`-exponent. (Hexadecimal literals and
digit-separating underscores are not used by the protocol and are left
out of the model.) -/
def validFloat (t : List Char) : Bool :=
  let r := (stripSign t).map Char.toLower
  if r = "inf".toList ∨ r = "infinity".toList ∨ r = "nan".toList then true
  else
    match r.splitOnP (fun c => c == 'e') with
    | [m] => mantissaOk m
    | [m, e] => mantissaOk m && exponentOk e
    | _ => false

/-- `strconv.ParseFloat(s, 64)`. The numeric value is represented by
its validated literal token (binary floating point is not modelled; no
claim depends on the value, only on parse success and pass-through). -/
def goParseFloat (t : List Char) : Option (List Char) :=
  if validFloat t then some t else none

/-! ## Messages and decode errors -/

/-- The spec's decode-error taxonomy, matching the distinct error cases
of `parseMessage` and the per-message parsers. -/
inductive DecodeError where
  | emptyInput
  | unknownMessage
  | wrongArity
  | malformedField (field : List Char)
  deriving DecidableEq, Repr

/-- The closed union of inbound protocol messages. Float-valued fields
carry their validated literal token; enum-valued fields (`GOption`,
`Object`, `Warning`, `Part`) carry the raw parsed integer, as the Go
structs do. -/
inductive Msg where
  | MessageInitialize (first : Bool)
  | MessageYourName (name : List Char)
  | MessageYourColour (colour : List Char)
  | MessageGameOption (option : Int) (value : List Char)
  | MessageGameStarts
  | MessageRadar (distance : List Char) (object : Int) (radarAngle : List Char)
  | MessageInfo (time speed cannonAngle : List Char)
  | MessageCoordinates (x y angle : List Char)
  | MessageRobotInfo (energyLevel : List Char) (teamMate : Bool)
  | MessageRotationReached (part : Int)
  | MessageEnergy (energyLevel : List Char)
  | MessageRobotsLeft (numRobots : Int)
  | MessageCollision (object : Int) (angle : List Char)
  | MessageWarning (warning : Int) (message : List Char)
  | MessageDead
  | MessageGameFinishes
  | MessageExitRobot
  deriving DecidableEq, Repr

/-! ## Per-message parsers -/

def parseInitialize (fs : List (List Char)) : Except DecodeError Msg :=
  match fs with
  | [_, t] => .ok (.MessageInitialize (t == "1".toList))
  | _ => .error .wrongArity

def parseYourName (fs : List (List Char)) : Except DecodeError Msg :=
  if fs.length < 2 then .error .wrongArity
  else .ok (.MessageYourName (List.intercalate [' '] (fs.drop 1)))

def parseYourColour (fs : List (List Char)) : Except DecodeError Msg :=
  if fs.length < 2 then .error .wrongArity
  else .ok (.MessageYourColour (List.intercalate [' '] (fs.drop 1)))

def parseGameOption (fs : List (List Char)) : Except DecodeError Msg :=
  match fs with
  | [_, f1, f2] =>
    match goParseInt f1 with
    | none => .error (.malformedField ("option".toList))
    | some option =>
      match goParseFloat f2 with
      | none => .error (.malformedField ("value".toList))
      | some value => .ok (.MessageGameOption option value)
  | _ => .error .wrongArity

def parseGameStarts (fs : List (List Char)) : Except DecodeError Msg :=
  match fs with
  | [_] => .ok .MessageGameStarts
  | _ => .error .wrongArity

def parseRadar (fs : List (List Char)) : Except DecodeError Msg :=
  match fs with
  | [_, f1, f2, f3] =>
    match goParseFloat f1 with
    | none => .error (.malformedField ("distance".toList))
    | some distance =>
      match goParseInt f2 with
      | none => .error (.malformedField ("object type".toList))
      | some object =>
        match goParseFloat f3 with
        | none => .error (.malformedField ("angle".toList))
        | some radarAngle => .ok (.MessageRadar distance object radarAngle)
  | _ => .error .wrongArity

def parseInfo (fs : List (List Char)) : Except DecodeError Msg :=
  match fs with
  | [_, f1, f2, f3] =>
    match goParseFloat f1 with
    | none => .error (.malformedField ("time".toList))
    | some time =>
      match goParseFloat f2 with
      | none => .error (.malformedField ("speed".toList))
      | some speed =>
        match goParseFloat f3 with
        | none => .error (.malformedField ("cannon angle".toList))
        | some cannonAngle => .ok (.MessageInfo time speed cannonAngle)
  | _ => .error .wrongArity

def parseCoordinates (fs : List (List Char)) : Except DecodeError Msg :=
  match fs with
  | [_, f1, f2, f3] =>
    match goParseFloat f1 with
    | none => .error (.malformedField ("x".toList))
    | some x =>
      match goParseFloat f2 with
      | none => .error (.malformedField ("y".toList))
      | some y =>
        match goParseFloat f3 with
        | none => .error (.malformedField ("angle".toList))
        | some angle => .ok (.MessageCoordinates x y angle)
  | _ => .error .wrongArity

def parseRobotInfo (fs : List (List Char)) : Except DecodeError Msg :=
  match fs with
  | [_, f1, f2] =>
    match goParseFloat f1 with
    | none => .error (.malformedField ("energy level".toList))
    | some energyLevel => .ok (.MessageRobotInfo energyLevel (f2 == "1".toList))
  | _ => .error .wrongArity

def parseRotationReached (fs : List (List Char)) : Except DecodeError Msg :=
  match fs with
  | [_, f1] =>
    match goParseInt f1 with
    | none => .error (.malformedField ("robot part".toList))
    | some part => .ok (.MessageRotationReached part)
  | _ => .error .wrongArity

def parseEnergy (fs : List (List Char)) : Except DecodeError Msg :=
  match fs with
  | [_, f1] =>
    match goParseFloat f1 with
    | none => .error (.malformedField ("energy level".toList))
    | some energyLevel => .ok (.MessageEnergy energyLevel)
  | _ => .error .wrongArity

def parseRobotsLeft (fs : List (List Char)) : Except DecodeError Msg :=
  match fs with
  | [_, f1] =>
    match goParseInt f1 with
    | none => .error (.malformedField ("number of robots".toList))
    | some numRobots => .ok (.MessageRobotsLeft numRobots)
  | _ => .error .wrongArity

def parseCollision (fs : List (List Char)) : Except DecodeError Msg :=
  match fs with
  | [_, f1, f2] =>
    match goParseInt f1 with
    | none => .error (.malformedField ("object type".toList))
    | some object =>
      match goParseFloat f2 with
      | none => .error (.malformedField ("angle".toList))
      | some angle => .ok (.MessageCollision object angle)
  | _ => .error .wrongArity

def parseWarning (fs : List (List Char)) : Except DecodeError Msg :=
  match fs with
  | _ :: f1 :: rest =>
    match goParseInt f1 with
    | none => .error (.malformedField ("warning type".toList))
    | some w =>
      let warnMsg := if rest.length > 0 then List.intercalate [' '] rest else []
      .ok (.MessageWarning w warnMsg)
  | _ => .error .wrongArity

def parseDead (fs : List (List Char)) : Except DecodeError Msg :=
  match fs with
  | [_] => .ok .MessageDead
  | _ => .error .wrongArity

def parseGameFinishes (fs : List (List Char)) : Except DecodeError Msg :=
  match fs with
  | [_] => .ok .MessageGameFinishes
  | _ => .error .wrongArity

def parseExitRobot (fs : List (List Char)) : Except DecodeError Msg :=
  match fs with
  | [_] => .ok .MessageExitRobot
  | _ => .error .wrongArity

/-- The `parsers` map: message name to parser. -/
def parsers (name : List Char) : Option (List (List Char) → Except DecodeError Msg) :=
  if name = "Initialize".toList then some parseInitialize
  else if name = "YourName".toList then some parseYourName
  else if name = "YourColour".toList then some parseYourColour
  else if name = "GameOption".toList then some parseGameOption
  else if name = "GameStarts".toList then some parseGameStarts
  else if name = "Radar".toList then some parseRadar
  else if name = "Info".toList then some parseInfo
  else if name = "Coordinates".toList then some parseCoordinates
  else if name = "RobotInfo".toList then some parseRobotInfo
  else if name = "RotationReached".toList then some parseRotationReached
  else if name = "Energy".toList then some parseEnergy
  else if name = "RobotsLeft".toList then some parseRobotsLeft
  else if name = "Collision".toList then some parseCollision
  else if name = "Warning".toList then some parseWarning
  else if name = "Dead".toList then some parseDead
  else if name = "GameFinishes".toList then some parseGameFinishes
  else if name = "ExitRobot".toList then some parseExitRobot
  else none

/-- `parseMessage`: trim, reject empty input, tokenize, dispatch on the
first token. The `[]` branch of the tokenization is unreachable (a
trimmed non-empty line has at least one token, see
`fields_trimSpace_ne_nil`); the indexed model `parseMessageIdx` accounts
for the unguarded `fields[0]` access of the source. -/
def parseMessage (line : List Char) : Except DecodeError Msg :=
  let s := trimSpace line
  if s = [] then .error .emptyInput
  else
    match fields s with
    | [] => .error .emptyInput
    | name :: rest =>
      match parsers name with
      | none => .error .unknownMessage
      | some f => f (name :: rest)

/-! ## Indexed decoder model

A second rendering of the same source functions in which every direct
Go slice access `fields[i]` is modelled as the partial lookup `fs[i]?`;
an overall result of `none` marks an out-of-bounds access (a Go panic).
These definitions exist solely to settle the memory-safety claim that
the guards of the source make every access in bounds: see
`parseMessage_total`. -/

def parseInitializeIdx (fs : List (List Char)) : Option (Except DecodeError Msg) :=
  if fs.length ≠ 2 then some (.error .wrongArity)
  else (fs[1]?).map fun t => .ok (.MessageInitialize (t == "1".toList))

def parseYourNameIdx (fs : List (List Char)) : Option (Except DecodeError Msg) :=
  if fs.length < 2 then some (.error .wrongArity)
  else some (.ok (.MessageYourName (List.intercalate [' '] (fs.drop 1))))

def parseYourColourIdx (fs : List (List Char)) : Option (Except DecodeError Msg) :=
  if fs.length < 2 then some (.error .wrongArity)
  else some (.ok (.MessageYourColour (List.intercalate [' '] (fs.drop 1))))

def parseGameOptionIdx (fs : List (List Char)) : Option (Except DecodeError Msg) :=
  if fs.length ≠ 3 then some (.error .wrongArity)
  else
    (fs[1]?).bind fun f1 =>
      match goParseInt f1 with
      | none => some (.error (.malformedField ("option".toList)))
      | some option =>
        (fs[2]?).bind fun f2 =>
          match goParseFloat f2 with
          | none => some (.error (.malformedField ("value".toList)))
          | some value => some (.ok (.MessageGameOption option value))

def parseGameStartsIdx (fs : List (List Char)) : Option (Except DecodeError Msg) :=
  if fs.length ≠ 1 then some (.error .wrongArity)
  else some (.ok .MessageGameStarts)

def parseRadarIdx (fs : List (List Char)) : Option (Except DecodeError Msg) :=
  if fs.length ≠ 4 then some (.error .wrongArity)
  else
    (fs[1]?).bind fun f1 =>
      match goParseFloat f1 with
      | none => some (.error (.malformedField ("distance".toList)))
      | some distance =>
        (fs[2]?).bind fun f2 =>
          match goParseInt f2 with
          | none => some (.error (.malformedField ("object type".toList)))
          | some object =>
            (fs[3]?).bind fun f3 =>
              match goParseFloat f3 with
              | none => some (.error (.malformedField ("angle".toList)))
              | some radarAngle => some (.ok (.MessageRadar distance object radarAngle))

def parseInfoIdx (fs : List (List Char)) : Option (Except DecodeError Msg) :=
  if fs.length ≠ 4 then some (.error .wrongArity)
  else
    (fs[1]?).bind fun f1 =>
      match goParseFloat f1 with
      | none => some (.error (.malformedField ("time".toList)))
      | some time =>
        (fs[2]?).bind fun f2 =>
          match goParseFloat f2 with
          | none => some (.error (.malformedField ("speed".toList)))
          | some speed =>
            (fs[3]?).bind fun f3 =>
              match goParseFloat f3 with
              | none => some (.error (.malformedField ("cannon angle".toList)))
              | some cannonAngle => some (.ok (.MessageInfo time speed cannonAngle))

def parseCoordinatesIdx (fs : List (List Char)) : Option (Except DecodeError Msg) :=
  if fs.length ≠ 4 then some (.error .wrongArity)
  else
    (fs[1]?).bind fun f1 =>
      match goParseFloat f1 with
      | none => some (.error (.malformedField ("x".toList)))
      | some x =>
        (fs[2]?).bind fun f2 =>
          match goParseFloat f2 with
          | none => some (.error (.malformedField ("y".toList)))
          | some y =>
            (fs[3]?).bind fun f3 =>
              match goParseFloat f3 with
              | none => some (.error (.malformedField ("angle".toList)))
              | some angle => some (.ok (.MessageCoordinates x y angle))

def parseRobotInfoIdx (fs : List (List Char)) : Option (Except DecodeError Msg) :=
  if fs.length ≠ 3 then some (.error .wrongArity)
  else
    (fs[1]?).bind fun f1 =>
      match goParseFloat f1 with
      | none => some (.error (.malformedField ("energy level".toList)))
      | some energyLevel =>
        (fs[2]?).map fun f2 => .ok (.MessageRobotInfo energyLevel (f2 == "1".toList))

def parseRotationReachedIdx (fs : List (List Char)) : Option (Except DecodeError Msg) :=
  if fs.length ≠ 2 then some (.error .wrongArity)
  else
    (fs[1]?).bind fun f1 =>
      match goParseInt f1 with
      | none => some (.error (.malformedField ("robot part".toList)))
      | some part => some (.ok (.MessageRotationReached part))

def parseEnergyIdx (fs : List (List Char)) : Option (Except DecodeError Msg) :=
  if fs.length ≠ 2 then some (.error .wrongArity)
  else
    (fs[1]?).bind fun f1 =>
      match goParseFloat f1 with
      | none => some (.error (.malformedField ("energy level".toList)))
      | some energyLevel => some (.ok (.MessageEnergy energyLevel))

def parseRobotsLeftIdx (fs : List (List Char)) : Option (Except DecodeError Msg) :=
  if fs.length ≠ 2 then some (.error .wrongArity)
  else
    (fs[1]?).bind fun f1 =>
      match goParseInt f1 with
      | none => some (.error (.malformedField ("number of robots".toList)))
      | some numRobots => some (.ok (.MessageRobotsLeft numRobots))

def parseCollisionIdx (fs : List (List Char)) : Option (Except DecodeError Msg) :=
  if fs.length ≠ 3 then some (.error .wrongArity)
  else
    (fs[1]?).bind fun f1 =>
      match goParseInt f1 with
      | none => some (.error (.malformedField ("object type".toList)))
      | some object =>
        (fs[2]?).bind fun f2 =>
          match goParseFloat f2 with
          | none => some (.error (.malformedField ("angle".toList)))
          | some angle => some (.ok (.MessageCollision object angle))

def parseWarningIdx (fs : List (List Char)) : Option (Except DecodeError Msg) :=
  if fs.length < 2 then some (.error .wrongArity)
  else
    (fs[1]?).bind fun f1 =>
      match goParseInt f1 with
      | none => some (.error (.malformedField ("warning type".toList)))
      | some w =>
        let warnMsg := if fs.length > 2 then List.intercalate [' '] (fs.drop 2) else []
        some (.ok (.MessageWarning w warnMsg))

def parseDeadIdx (fs : List (List Char)) : Option (Except DecodeError Msg) :=
  if fs.length ≠ 1 then some (.error .wrongArity)
  else some (.ok .MessageDead)

def parseGameFinishesIdx (fs : List (List Char)) : Option (Except DecodeError Msg) :=
  if fs.length ≠ 1 then some (.error .wrongArity)
  else some (.ok .MessageGameFinishes)

def parseExitRobotIdx (fs : List (List Char)) : Option (Except DecodeError Msg) :=
  if fs.length ≠ 1 then some (.error .wrongArity)
  else some (.ok .MessageExitRobot)

/-- The `parsers` map, indexed-model side. -/
def parsersIdx (name : List Char) :
    Option (List (List Char) → Option (Except DecodeError Msg)) :=
  if name = "Initialize".toList then some parseInitializeIdx
  else if name = "YourName".toList then some parseYourNameIdx
  else if name = "YourColour".toList then some parseYourColourIdx
  else if name = "GameOption".toList then some parseGameOptionIdx
  else if name = "GameStarts".toList then some parseGameStartsIdx
  else if name = "Radar".toList then some parseRadarIdx
  else if name = "Info".toList then some parseInfoIdx
  else if name = "Coordinates".toList then some parseCoordinatesIdx
  else if name = "RobotInfo".toList then some parseRobotInfoIdx
  else if name = "RotationReached".toList then some parseRotationReachedIdx
  else if name = "Energy".toList then some parseEnergyIdx
  else if name = "RobotsLeft".toList then some parseRobotsLeftIdx
  else if name = "Collision".toList then some parseCollisionIdx
  else if name = "Warning".toList then some parseWarningIdx
  else if name = "Dead".toList then some parseDeadIdx
  else if name = "GameFinishes".toList then some parseGameFinishesIdx
  else if name = "ExitRobot".toList then some parseExitRobotIdx
  else none

/-- `parseMessage` with the unguarded `fields[0]` access and all parser
field accesses modelled partially. -/
def parseMessageIdx (line : List Char) : Option (Except DecodeError Msg) :=
  let s := trimSpace line
  if s = [] then some (.error .emptyInput)
  else
    ((fields s)[0]?).bind fun name =>
      match parsersIdx name with
      | none => some (.error .unknownMessage)
      | some f => f (fields s)

/-! ## Encoder (rawf and the command functions) -/

/-- Go `len` of a string: total UTF-8 byte size. -/
def byteLen (l : List Char) : Nat := (l.map Char.utf8Size).sum

/-- The spec's encode-error taxonomy: the single `TooLong` failure of
`rawf`, carrying the offending length as the Go error does. -/
inductive EncodeError where
  | tooLong (length : Nat)
  deriving DecidableEq, Repr

/-- `rawf`: append a newline unless one is already present, fail if the
resulting line exceeds 128 bytes, otherwise write it. The returned line
is the one written to standard output. -/
def rawf (s : List Char) : Except EncodeError (List Char) :=
  let t := if s.getLast? = some '\n' then s else s ++ ['\n']
  if 128 < byteLen t then .error (.tooLong (byteLen t))
  else .ok t

/-- Decimal digit character (`fmt` integer formatting). -/
def digitChar (n : Nat) : Char := Char.ofNat (48 + n)

/-- Decimal rendering of a natural number, most significant digit
first. Structural fuel keeps the definition kernel-reducible; the fuel
`n + 1` always suffices (`natToChars_fuel_irrel`). -/
def natToCharsAux : Nat → Nat → List Char
  | 0, _ => []
  | fuel + 1, n =>
    if n < 10 then [digitChar n]
    else natToCharsAux fuel (n / 10) ++ [digitChar (n % 10)]

def natToChars (n : Nat) : List Char := natToCharsAux (n + 1) n

/-- `fmt` `%d` formatting of an integer. -/
def intToChars (i : Int) : List Char :=
  if i < 0 then '-' :: natToChars i.natAbs else natToChars i.natAbs

/-- `robotOption`: `rawf("RobotOption %d %d", option, value)`. -/
def robotOption (option value : Int) : Except EncodeError (List Char) :=
  rawf ("RobotOption ".toList ++ intToChars option ++ [' '] ++ intToChars value)

/-- Round the rational `q` scaled by 10^6 to the nearest integer, with
exact halfway cases rounded to even — the rounding that
`strconv.FormatFloat(v, 'f', 6, 64)` applies to the (finite, exact)
decimal expansion of a float64 value. `q * 1000000` is handled as the
possibly unnormalized fraction `q.num * 1000000 / q.den`; `fl` is its
floor and `r` the remainder, so the fraction is `fl + r / den` with
`0 ≤ r < den`, and the tie is exactly `2 * r = den`. -/
def roundEven6 (q : ℚ) : Int :=
  let scaledNum := q.num * 1000000
  let den : Int := (q.den : Int)
  let fl := scaledNum.fdiv den
  let r := scaledNum - fl * den
  if 2 * r < den then fl
  else if den < 2 * r then fl + 1
  else if fl % 2 = 0 then fl
  else fl + 1

/-- `fmt` `%f` formatting of a `float64`, modelled over the rationals
(every finite float64 value is such a rational): the sign is the sign
of the value, the digits come from the value scaled by 10^6 and rounded
to the nearest integer with exact ties to even (`roundEven6`, matching
`strconv`'s fixed-precision rounding), printed with exactly six
fractional digits. ±Inf and NaN have no rational counterpart and are
outside the model. -/
def fmtFloat6 (q : ℚ) : List Char :=
  let n := roundEven6 q
  let sign : List Char := if q.num < 0 then ['-'] else []
  let m := n.natAbs
  let frac := natToChars (m % 1000000)
  sign ++ natToChars (m / 1000000) ++ ['.'] ++
    (List.replicate (6 - frac.length) '0' ++ frac)

/-- `Brake`: `rawf("Break %f", portion)` — note the wire keyword. -/
def Brake (portion : ℚ) : Except EncodeError (List Char) :=
  rawf ("Break ".toList ++ fmtFloat6 portion)

/-- `Debugf`: `rawf("Debug " + format, a...)`. -/
def Debugf (s : List Char) : Except EncodeError (List Char) :=
  rawf ("Debug ".toList ++ s)

/-- `dbgf`: a no-op success unless the process-wide `Debug` flag
(modelled as the explicit argument `debug`) is set, in which case it
defers to `Debugf`. `ok none` means success with nothing written;
`ok (some l)` means `l` was written. -/
def dbgf (debug : Bool) (s : List Char) : Except EncodeError (Option (List Char)) :=
  if !debug then .ok none
  else (Debugf s).map some

/-! ## Part rendering -/

/-- `Part.String`: collect the names of the recognized bits in fixed
order and join them with `|`; fall back to `unknown` when none is
set. `Part` is modelled as the non-negative bit patterns actually used
by the protocol. -/
def PartString (p : Nat) : List Char :=
  let parts : List (List Char) :=
    (if p &&& 1 ≠ 0 then ["Robot".toList] else []) ++
      (if p &&& 2 ≠ 0 then ["Cannon".toList] else []) ++
        (if p &&& 4 ≠ 0 then ["Radar".toList] else [])
  if parts = [] then ("unknown".toList)
  else List.intercalate ['|'] parts

/-- Rendering as the spec words it: the names of the recognized bits
{Robot=1, Cannon=2, Radar=4} that are set in `p` (tested as bits 0, 1
and 2), in the fixed order Robot, Cannon, Radar, joined by `|`; with no
recognized bit set the result is `unknown`. Stated independently of
`PartString` so the two can be compared. -/
def specPartRender (p : Nat) : List Char :=
  let names : List (List Char) :=
    (if p.testBit 0 then ["Robot".toList] else []) ++
      (if p.testBit 1 then ["Cannon".toList] else []) ++
        (if p.testBit 2 then ["Radar".toList] else [])
  if names = [] then ("unknown".toList)
  else List.intercalate ['|'] names

/-! ## Ingestion pipeline -/

/-- Observable pipeline actions: a line written to standard output, a
message delivered on the channel, the channel being closed. -/
inductive Event where
  | write (line : List Char)
  | deliver (msg : Msg)
  | closeChan
  deriving DecidableEq, Repr

/-- The settings passed to `Listen`. `sendRotationReached` is a Go
`int`. The channel capacity does not influence the delivered sequence
and is kept only for shape. -/
structure ListenSettings where
  sendRotationReached : Int
  chanBufferCapacity : Nat

/-- The write performed by a `rawf`-based call whose error is ignored:
a successful encode writes its line, a failed one writes nothing. -/
def writeEvents : Except EncodeError (List Char) → List Event
  | .ok l => [.write l]
  | .error _ => []

/-- The reader loop of `Listen`: decode each line in order, deliver
successes, skip failures, close the channel when the input ends. -/
def listenLoop : List (List Char) → List Event
  | [] => [.closeChan]
  | line :: rest =>
    match parseMessage line with
    | .error _ => listenLoop rest
    | .ok msg => .deliver msg :: listenLoop rest

/-- `Listen` over a finite input: the two synchronous bootstrap
declarations (`rOptionUseNonBlocking = 3` set to 0, then
`rOptionSendRotationReached = 1` set to the configured value), followed
by the reader loop. -/
def listen (settings : ListenSettings) (lines : List (List Char)) : List Event :=
  writeEvents (robotOption 3 0) ++
    (writeEvents (robotOption 1 settings.sendRotationReached) ++ listenLoop lines)

/-! ## Tokenization lemmas -/

theorem fields_nil : fields [] = [] := rfl

theorem fields_cons_space {c : Char} (hc : isSpace c = true) (l : List Char) :
    fields (c :: l) = fields l := by
  simp [fields, List.splitOnP_cons, hc]

theorem fields_cons_nonspace {c : Char} (hc : isSpace c = false) (l : List Char) :
    ∃ t rest, fields (c :: l) = (c :: t) :: rest := by
  obtain ⟨h, tl, hs⟩ : ∃ h tl, l.splitOnP isSpace = h :: tl := by
    rcases e : l.splitOnP isSpace with _ | ⟨h, tl⟩
    · exact absurd e (List.splitOnP_ne_nil _ l)
    · exact ⟨h, tl, rfl⟩
  refine ⟨h, tl.filter (fun t => !t.isEmpty), ?_⟩
  simp [fields, List.splitOnP_cons, hc, hs]

theorem fields_ne_nil {l : List Char} {c : Char} (hm : c ∈ l)
    (hc : isSpace c = false) : fields l ≠ [] := by
  induction l with
  | nil => cases hm
  | cons a t ih =>
    cases ha : isSpace a with
    | true =>
      rw [fields_cons_space ha]
      rcases List.mem_cons.mp hm with rfl | hm'
      · rw [ha] at hc; cases hc
      · exact ih hm'
    | false =>
      obtain ⟨tt, rest, he⟩ := fields_cons_nonspace ha t
      rw [he]
      simp

theorem trimSpace_head_nonspace {l : List Char} (h : trimSpace l ≠ []) :
    ∃ c ∈ trimSpace l, isSpace c = false := by
  have hYne : (l.dropWhile isSpace).reverse.dropWhile isSpace ≠ [] := by
    intro he
    apply h
    simp [trimSpace, he]
  refine ⟨((l.dropWhile isSpace).reverse.dropWhile isSpace).head hYne, ?_, ?_⟩
  · show _ ∈ trimSpace l
    rw [trimSpace]
    exact List.mem_reverse.mpr (List.head_mem hYne)
  · exact List.head_dropWhile_not isSpace _ hYne

theorem fields_trimSpace_ne_nil {l : List Char} (h : trimSpace l ≠ []) :
    fields (trimSpace l) ≠ [] := by
  obtain ⟨c, hm, hc⟩ := trimSpace_head_nonspace h
  exact fields_ne_nil hm hc

/-- Dispatch shape of `parseMessage`: once the tokenization of a line is
known and its first token has a registered parser, decoding is that
parser applied to the token list. -/
theorem parseMessage_dispatch {line name : List Char} {rest : List (List Char)}
    {f : List (List Char) → Except DecodeError Msg}
    (hf : fields (trimSpace line) = name :: rest)
    (hp : parsers name = some f) :
    parseMessage line = f (name :: rest) := by
  have hne : trimSpace line ≠ [] := by
    intro he
    rw [he] at hf
    simp [fields_nil] at hf
  simp [parseMessage, hne, hf, hp]

/-! ## Claim C1 -/

/-- C1: the spec (and the repository's own test) require the `RobotInfo`
teammate token to be validated strictly, with `"-1"` failing decode.
The code instead decodes the field as `token == "1"` with no
validation: `"RobotInfo 1.2 -1"` decodes successfully with
`TeamMate = false`, contradicting the in-tree test case
`{"RobotInfo unknown", "RobotInfo 1.2 -1", nil, false}`. The `"0"` and
`"1"` cases behave as claimed. -/
theorem robotInfo_teamMate_not_strict :
    parseMessage ("RobotInfo 1.2 0".toList) = .ok (.MessageRobotInfo ("1.2".toList) false) ∧
    parseMessage ("RobotInfo 1.2 1".toList) = .ok (.MessageRobotInfo ("1.2".toList) true) ∧
    parseMessage ("RobotInfo 1.2 -1".toList) = .ok (.MessageRobotInfo ("1.2".toList) false) :=
  ⟨by decide, by decide, by decide⟩

/-! ## Claim C2 -/

/-- C2: over any finite input, the reader loop delivers exactly the
successfully decoded messages, in source-line order; failed decodes are
skipped without ending the stream, and the channel is closed after the
last line. -/
theorem listenLoop_delivers_decoded (lines : List (List Char)) :
    listenLoop lines =
      ((lines.filterMap fun l => (parseMessage l).toOption).map Event.deliver)
        ++ [Event.closeChan] := by
  induction lines with
  | nil => rfl
  | cons l rest ih =>
    cases h : parseMessage l with
    | error e => simp [listenLoop, h, ih, Except.toOption]
    | ok m => simp [listenLoop, h, ih, Except.toOption]

/-! ## Claim C3 -/

theorem byteLen_append (a b : List Char) :
    byteLen (a ++ b) = byteLen a + byteLen b := by
  simp [byteLen]

/-- C3: `rawf` enforces the 128-byte limit with the boundary at exactly
128 total bytes including the appended newline: a 127-byte payload
succeeds and writes a 128-byte line, a payload of 128 bytes or more
fails with `TooLong`. -/
theorem rawf_boundary (s : List Char) (hnl : s.getLast? ≠ some '\n') :
    (byteLen s = 127 →
      rawf s = .ok (s ++ ['\n']) ∧ byteLen (s ++ ['\n']) = 128) ∧
    (128 ≤ byteLen s →
      rawf s = .error (.tooLong (byteLen s + 1))) := by
  have hb : byteLen (s ++ ['\n']) = byteLen s + 1 := by
    rw [byteLen_append]
    rw [show byteLen ['\n'] = 1 from by decide]
  constructor
  · intro h127
    refine ⟨?_, by rw [hb, h127]⟩
    unfold rawf
    rw [if_neg hnl, if_neg (by rw [hb, h127]; omega)]
  · intro h128
    unfold rawf
    rw [if_neg hnl, if_pos (by rw [hb]; omega), hb]

set_option maxRecDepth 8000 in
theorem rawf_boundary_witness :
    rawf (List.replicate 127 'x') = .ok (List.replicate 127 'x' ++ ['\n']) ∧
    rawf (List.replicate 128 'x') = .error (.tooLong 129) := by
  constructor
  · exact ((rawf_boundary (List.replicate 127 'x') (by decide)).1 (by decide)).1
  · have h := (rawf_boundary (List.replicate 128 'x') (by decide)).2 (by decide)
    rw [show byteLen (List.replicate 128 'x') = 128 from by decide] at h
    exact h

/-! ## Claim C5 -/

theorem getLast?_append_ne {pre s : List Char} (c : Char)
    (hpre : pre.getLast? ≠ some c) (hs : s.getLast? ≠ some c) :
    (pre ++ s).getLast? ≠ some c := by
  rw [List.getLast?_append]
  cases e : s.getLast? with
  | none => simpa using hpre
  | some d =>
    rw [e] at hs
    simpa using hs

/-- C5: with the debug flag off, a debug-print call writes nothing and
returns success; with the flag on it behaves as `Debugf`, writing the
formatted `Debug` line (shown explicitly for any payload that fits the
128-byte line limit). -/
theorem dbgf_flag (s : List Char) :
    dbgf false s = .ok none ∧
    dbgf true s = (Debugf s).map some ∧
    (s.getLast? ≠ some '\n' → byteLen s ≤ 121 →
      dbgf true s = .ok (some ("Debug ".toList ++ s ++ ['\n']))) := by
  refine ⟨rfl, rfl, fun hnl hlen => ?_⟩
  have h1 : ("Debug ".toList ++ s).getLast? ≠ some '\n' :=
    getLast?_append_ne '\n' (by decide) hnl
  have h2 : byteLen ("Debug ".toList ++ s) = 6 + byteLen s := by
    rw [byteLen_append]
    rw [show byteLen ("Debug ".toList) = 6 from by decide]
  have h3 : byteLen (("Debug ".toList ++ s) ++ ['\n']) = 7 + byteLen s := by
    rw [byteLen_append, h2]
    rw [show byteLen ['\n'] = 1 from by decide]
    omega
  show (Debugf s).map some = _
  unfold Debugf rawf
  rw [if_neg h1, if_neg (by rw [h3]; omega)]
  rfl

theorem dbgf_flag_witness :
    dbgf false ("x".toList) = .ok none ∧
    dbgf true ("x".toList) = .ok (some ("Debug x\n".toList)) := by
  refine ⟨(dbgf_flag ("x".toList)).1, ?_⟩
  have h := (dbgf_flag ("x".toList)).2.2 (by decide) (by decide)
  rw [show ("Debug ".toList) ++ "x".toList ++ ['\n'] = "Debug x\n".toList from by decide] at h
  exact h

/-! ## Claim C6 -/

theorem land_two_pow_ne_zero (p i : Nat) :
    p &&& 2 ^ i ≠ 0 ↔ p.testBit i = true := by
  constructor
  · intro h
    obtain ⟨j, hj⟩ := Nat.ne_zero_implies_bit_true h
    rw [Nat.testBit_and] at hj
    have hij : i = j := by
      by_contra hne
      rw [Nat.testBit_two_pow_of_ne hne] at hj
      simp at hj
    subst hij
    rw [Nat.testBit_two_pow_self, Bool.and_true] at hj
    exact hj
  · intro h hz
    have hbit : (p &&& 2 ^ i).testBit i = true := by
      rw [Nat.testBit_and, h, Nat.testBit_two_pow_self]
      rfl
    rw [hz] at hbit
    simp [Nat.zero_testBit] at hbit

/-- C6: `Part.String` renders the names of the recognized bits
{Robot=1, Cannon=2, Radar=4} set in `p`, in fixed order, joined by
`|` (the spec-side rendering `specPartRender`); bits above bit 2 are
ignored; any value with no recognized bit renders `unknown`; in
particular `15 ↦ Robot|Cannon|Radar` and `16, 0 ↦ unknown`. -/
theorem partString_correct :
    (∀ p : Nat, PartString p = specPartRender p) ∧
    (∀ p : Nat, PartString (p % 8) = PartString p) ∧
    (∀ p : Nat, p &&& 7 = 0 → PartString p = "unknown".toList) ∧
    PartString 15 = "Robot|Cannon|Radar".toList ∧
    PartString 16 = "unknown".toList ∧
    PartString 0 = "unknown".toList := by
  have e0 : ∀ p : Nat, (p &&& 1 ≠ 0) = (p.testBit 0 = true) := by
    intro p
    have h := land_two_pow_ne_zero p 0
    rw [pow_zero] at h
    exact propext h
  have e1 : ∀ p : Nat, (p &&& 2 ≠ 0) = (p.testBit 1 = true) := by
    intro p
    have h := land_two_pow_ne_zero p 1
    rw [pow_one] at h
    exact propext h
  have e2 : ∀ p : Nat, (p &&& 4 ≠ 0) = (p.testBit 2 = true) := by
    intro p
    have h := land_two_pow_ne_zero p 2
    rw [show (2 : ℕ) ^ 2 = 4 from by norm_num] at h
    exact propext h
  have key : ∀ p : Nat, PartString p = specPartRender p := by
    intro p
    simp only [PartString, specPartRender, e0, e1, e2]
  refine ⟨key, ?_, ?_, by decide, by decide, by decide⟩
  · intro p
    rw [key, key]
    have t0 : (p % 8).testBit 0 = p.testBit 0 := by
      rw [show (8 : ℕ) = 2 ^ 3 from by norm_num, Nat.testBit_mod_two_pow]
      simp
    have t1 : (p % 8).testBit 1 = p.testBit 1 := by
      rw [show (8 : ℕ) = 2 ^ 3 from by norm_num, Nat.testBit_mod_two_pow]
      simp
    have t2 : (p % 8).testBit 2 = p.testBit 2 := by
      rw [show (8 : ℕ) = 2 ^ 3 from by norm_num, Nat.testBit_mod_two_pow]
      simp
    simp only [specPartRender, t0, t1, t2]
  · intro p hp
    have hb : ∀ i, i < 3 → p.testBit i = false := by
      intro i hi
      have h7 : (7 : ℕ).testBit i = true := by
        interval_cases i <;> decide
      have hc := congrArg (fun n => Nat.testBit n i) hp
      simpa [Nat.testBit_and, h7] using hc
    rw [key]
    simp only [specPartRender, hb 0 (by omega), hb 1 (by omega), hb 2 (by omega)]
    simp

theorem partString_correct_witness :
    PartString 24 = "unknown".toList ∧ PartString 5 = specPartRender 5 :=
  ⟨partString_correct.2.2.1 24 (by decide), partString_correct.1 5⟩

/-! ## Claim C7 -/

/-- C7: a line that tokenizes as `Initialize` followed by exactly one
token `t` always decodes successfully, with `First = (t == "1")`; any
token other than `"1"` (including `"0"`, `"2"` and non-numeric text)
yields `false` rather than a parse error. -/
theorem parseInitialize_token (line t : List Char)
    (hf : fields (trimSpace line) = ["Initialize".toList, t]) :
    parseMessage line = .ok (.MessageInitialize (t == "1".toList)) := by
  rw [parseMessage_dispatch hf rfl]
  rfl

theorem parseInitialize_token_witness :
    parseMessage ("Initialize 1".toList) = .ok (.MessageInitialize true) ∧
    parseMessage ("Initialize 2".toList) = .ok (.MessageInitialize false) ∧
    parseMessage ("Initialize foo".toList) = .ok (.MessageInitialize false) := by
  refine ⟨?_, ?_, ?_⟩
  · have h := parseInitialize_token ("Initialize 1".toList) "1".toList (by decide)
    rw [show ("1".toList == "1".toList) = true from by decide] at h
    exact h
  · have h := parseInitialize_token ("Initialize 2".toList) "2".toList (by decide)
    rw [show ("2".toList == "1".toList) = false from by decide] at h
    exact h
  · have h := parseInitialize_token ("Initialize foo".toList) "foo".toList (by decide)
    rw [show ("foo".toList == "1".toList) = false from by decide] at h
    exact h

/-! ## Claim C4: arity lemmas -/

theorem parseInitialize_arity (fs : List (List Char)) :
    parseInitialize fs = .error .wrongArity ↔ fs.length ≠ 2 := by
  rcases fs with _ | ⟨a, _ | ⟨b, _ | ⟨c, r⟩⟩⟩ <;> simp [parseInitialize]

theorem parseYourName_arity (fs : List (List Char)) :
    parseYourName fs = .error .wrongArity ↔ fs.length < 2 := by
  rcases fs with _ | ⟨a, _ | ⟨b, r⟩⟩ <;> simp [parseYourName]

theorem parseYourColour_arity (fs : List (List Char)) :
    parseYourColour fs = .error .wrongArity ↔ fs.length < 2 := by
  rcases fs with _ | ⟨a, _ | ⟨b, r⟩⟩ <;> simp [parseYourColour]

theorem parseGameOption_arity (fs : List (List Char)) :
    parseGameOption fs = .error .wrongArity ↔ fs.length ≠ 3 := by
  rcases fs with _ | ⟨a, _ | ⟨b, _ | ⟨c, _ | ⟨d, r⟩⟩⟩⟩
  · simp [parseGameOption]
  · simp [parseGameOption]
  · simp [parseGameOption]
  · rcases hb : goParseInt b with _ | o
    · simp [parseGameOption, hb]
    · rcases hc : goParseFloat c with _ | v <;> simp [parseGameOption, hb, hc]
  · simp [parseGameOption]

theorem parseGameStarts_arity (fs : List (List Char)) :
    parseGameStarts fs = .error .wrongArity ↔ fs.length ≠ 1 := by
  rcases fs with _ | ⟨a, _ | ⟨b, r⟩⟩ <;> simp [parseGameStarts]

theorem parseRadar_arity (fs : List (List Char)) :
    parseRadar fs = .error .wrongArity ↔ fs.length ≠ 4 := by
  rcases fs with _ | ⟨a, _ | ⟨b, _ | ⟨c, _ | ⟨d, _ | ⟨e, r⟩⟩⟩⟩⟩
  · simp [parseRadar]
  · simp [parseRadar]
  · simp [parseRadar]
  · simp [parseRadar]
  · rcases hb : goParseFloat b with _ | v1
    · simp [parseRadar, hb]
    · rcases hc : goParseInt c with _ | v2
      · simp [parseRadar, hb, hc]
      · rcases hd : goParseFloat d with _ | v3 <;> simp [parseRadar, hb, hc, hd]
  · simp [parseRadar]

theorem parseInfo_arity (fs : List (List Char)) :
    parseInfo fs = .error .wrongArity ↔ fs.length ≠ 4 := by
  rcases fs with _ | ⟨a, _ | ⟨b, _ | ⟨c, _ | ⟨d, _ | ⟨e, r⟩⟩⟩⟩⟩
  · simp [parseInfo]
  · simp [parseInfo]
  · simp [parseInfo]
  · simp [parseInfo]
  · rcases hb : goParseFloat b with _ | v1
    · simp [parseInfo, hb]
    · rcases hc : goParseFloat c with _ | v2
      · simp [parseInfo, hb, hc]
      · rcases hd : goParseFloat d with _ | v3 <;> simp [parseInfo, hb, hc, hd]
  · simp [parseInfo]

theorem parseCoordinates_arity (fs : List (List Char)) :
    parseCoordinates fs = .error .wrongArity ↔ fs.length ≠ 4 := by
  rcases fs with _ | ⟨a, _ | ⟨b, _ | ⟨c, _ | ⟨d, _ | ⟨e, r⟩⟩⟩⟩⟩
  · simp [parseCoordinates]
  · simp [parseCoordinates]
  · simp [parseCoordinates]
  · simp [parseCoordinates]
  · rcases hb : goParseFloat b with _ | v1
    · simp [parseCoordinates, hb]
    · rcases hc : goParseFloat c with _ | v2
      · simp [parseCoordinates, hb, hc]
      · rcases hd : goParseFloat d with _ | v3 <;> simp [parseCoordinates, hb, hc, hd]
  · simp [parseCoordinates]

theorem parseRobotInfo_arity (fs : List (List Char)) :
    parseRobotInfo fs = .error .wrongArity ↔ fs.length ≠ 3 := by
  rcases fs with _ | ⟨a, _ | ⟨b, _ | ⟨c, _ | ⟨d, r⟩⟩⟩⟩
  · simp [parseRobotInfo]
  · simp [parseRobotInfo]
  · simp [parseRobotInfo]
  · rcases hb : goParseFloat b with _ | v <;> simp [parseRobotInfo, hb]
  · simp [parseRobotInfo]

theorem parseRotationReached_arity (fs : List (List Char)) :
    parseRotationReached fs = .error .wrongArity ↔ fs.length ≠ 2 := by
  rcases fs with _ | ⟨a, _ | ⟨b, _ | ⟨c, r⟩⟩⟩
  · simp [parseRotationReached]
  · simp [parseRotationReached]
  · rcases hb : goParseInt b with _ | v <;> simp [parseRotationReached, hb]
  · simp [parseRotationReached]

theorem parseEnergy_arity (fs : List (List Char)) :
    parseEnergy fs = .error .wrongArity ↔ fs.length ≠ 2 := by
  rcases fs with _ | ⟨a, _ | ⟨b, _ | ⟨c, r⟩⟩⟩
  · simp [parseEnergy]
  · simp [parseEnergy]
  · rcases hb : goParseFloat b with _ | v <;> simp [parseEnergy, hb]
  · simp [parseEnergy]

theorem parseRobotsLeft_arity (fs : List (List Char)) :
    parseRobotsLeft fs = .error .wrongArity ↔ fs.length ≠ 2 := by
  rcases fs with _ | ⟨a, _ | ⟨b, _ | ⟨c, r⟩⟩⟩
  · simp [parseRobotsLeft]
  · simp [parseRobotsLeft]
  · rcases hb : goParseInt b with _ | v <;> simp [parseRobotsLeft, hb]
  · simp [parseRobotsLeft]

theorem parseCollision_arity (fs : List (List Char)) :
    parseCollision fs = .error .wrongArity ↔ fs.length ≠ 3 := by
  rcases fs with _ | ⟨a, _ | ⟨b, _ | ⟨c, _ | ⟨d, r⟩⟩⟩⟩
  · simp [parseCollision]
  · simp [parseCollision]
  · simp [parseCollision]
  · rcases hb : goParseInt b with _ | o
    · simp [parseCollision, hb]
    · rcases hc : goParseFloat c with _ | v <;> simp [parseCollision, hb, hc]
  · simp [parseCollision]

theorem parseWarning_arity (fs : List (List Char)) :
    parseWarning fs = .error .wrongArity ↔ fs.length < 2 := by
  rcases fs with _ | ⟨a, _ | ⟨b, r⟩⟩
  · simp [parseWarning]
  · simp [parseWarning]
  · rcases hb : goParseInt b with _ | w <;> simp [parseWarning, hb]

theorem parseDead_arity (fs : List (List Char)) :
    parseDead fs = .error .wrongArity ↔ fs.length ≠ 1 := by
  rcases fs with _ | ⟨a, _ | ⟨b, r⟩⟩ <;> simp [parseDead]

theorem parseGameFinishes_arity (fs : List (List Char)) :
    parseGameFinishes fs = .error .wrongArity ↔ fs.length ≠ 1 := by
  rcases fs with _ | ⟨a, _ | ⟨b, r⟩⟩ <;> simp [parseGameFinishes]

theorem parseExitRobot_arity (fs : List (List Char)) :
    parseExitRobot fs = .error .wrongArity ↔ fs.length ≠ 1 := by
  rcases fs with _ | ⟨a, _ | ⟨b, r⟩⟩ <;> simp [parseExitRobot]

/-- C4: for every input line whose first token is a known message name,
decoding fails with `WrongArity` exactly when the token count (message
name included) violates that message's arity: exactly 2 for
`Initialize`, `RotationReached`, `Energy`, `RobotsLeft`; exactly 3 for
`GameOption`, `RobotInfo`, `Collision`; exactly 4 for `Radar`, `Info`,
`Coordinates`; exactly 1 for `GameStarts`, `Dead`, `GameFinishes`,
`ExitRobot`; at least 2 for `YourName`, `YourColour`, `Warning`. -/
theorem decode_arity :
    (∀ line rest, fields (trimSpace line) = "Initialize".toList :: rest →
      (parseMessage line = .error .wrongArity ↔
        ("Initialize".toList :: rest).length ≠ 2)) ∧
    (∀ line rest, fields (trimSpace line) = "RotationReached".toList :: rest →
      (parseMessage line = .error .wrongArity ↔
        ("RotationReached".toList :: rest).length ≠ 2)) ∧
    (∀ line rest, fields (trimSpace line) = "Energy".toList :: rest →
      (parseMessage line = .error .wrongArity ↔
        ("Energy".toList :: rest).length ≠ 2)) ∧
    (∀ line rest, fields (trimSpace line) = "RobotsLeft".toList :: rest →
      (parseMessage line = .error .wrongArity ↔
        ("RobotsLeft".toList :: rest).length ≠ 2)) ∧
    (∀ line rest, fields (trimSpace line) = "GameOption".toList :: rest →
      (parseMessage line = .error .wrongArity ↔
        ("GameOption".toList :: rest).length ≠ 3)) ∧
    (∀ line rest, fields (trimSpace line) = "RobotInfo".toList :: rest →
      (parseMessage line = .error .wrongArity ↔
        ("RobotInfo".toList :: rest).length ≠ 3)) ∧
    (∀ line rest, fields (trimSpace line) = "Collision".toList :: rest →
      (parseMessage line = .error .wrongArity ↔
        ("Collision".toList :: rest).length ≠ 3)) ∧
    (∀ line rest, fields (trimSpace line) = "Radar".toList :: rest →
      (parseMessage line = .error .wrongArity ↔
        ("Radar".toList :: rest).length ≠ 4)) ∧
    (∀ line rest, fields (trimSpace line) = "Info".toList :: rest →
      (parseMessage line = .error .wrongArity ↔
        ("Info".toList :: rest).length ≠ 4)) ∧
    (∀ line rest, fields (trimSpace line) = "Coordinates".toList :: rest →
      (parseMessage line = .error .wrongArity ↔
        ("Coordinates".toList :: rest).length ≠ 4)) ∧
    (∀ line rest, fields (trimSpace line) = "GameStarts".toList :: rest →
      (parseMessage line = .error .wrongArity ↔
        ("GameStarts".toList :: rest).length ≠ 1)) ∧
    (∀ line rest, fields (trimSpace line) = "Dead".toList :: rest →
      (parseMessage line = .error .wrongArity ↔
        ("Dead".toList :: rest).length ≠ 1)) ∧
    (∀ line rest, fields (trimSpace line) = "GameFinishes".toList :: rest →
      (parseMessage line = .error .wrongArity ↔
        ("GameFinishes".toList :: rest).length ≠ 1)) ∧
    (∀ line rest, fields (trimSpace line) = "ExitRobot".toList :: rest →
      (parseMessage line = .error .wrongArity ↔
        ("ExitRobot".toList :: rest).length ≠ 1)) ∧
    (∀ line rest, fields (trimSpace line) = "YourName".toList :: rest →
      (parseMessage line = .error .wrongArity ↔
        ("YourName".toList :: rest).length < 2)) ∧
    (∀ line rest, fields (trimSpace line) = "YourColour".toList :: rest →
      (parseMessage line = .error .wrongArity ↔
        ("YourColour".toList :: rest).length < 2)) ∧
    (∀ line rest, fields (trimSpace line) = "Warning".toList :: rest →
      (parseMessage line = .error .wrongArity ↔
        ("Warning".toList :: rest).length < 2)) := by
  refine ⟨?_, ?_, ?_, ?_, ?_, ?_, ?_, ?_, ?_, ?_, ?_, ?_, ?_, ?_, ?_, ?_, ?_⟩
  · intro line rest hf
    rw [parseMessage_dispatch hf rfl]
    exact parseInitialize_arity _
  · intro line rest hf
    rw [parseMessage_dispatch hf rfl]
    exact parseRotationReached_arity _
  · intro line rest hf
    rw [parseMessage_dispatch hf rfl]
    exact parseEnergy_arity _
  · intro line rest hf
    rw [parseMessage_dispatch hf rfl]
    exact parseRobotsLeft_arity _
  · intro line rest hf
    rw [parseMessage_dispatch hf rfl]
    exact parseGameOption_arity _
  · intro line rest hf
    rw [parseMessage_dispatch hf rfl]
    exact parseRobotInfo_arity _
  · intro line rest hf
    rw [parseMessage_dispatch hf rfl]
    exact parseCollision_arity _
  · intro line rest hf
    rw [parseMessage_dispatch hf rfl]
    exact parseRadar_arity _
  · intro line rest hf
    rw [parseMessage_dispatch hf rfl]
    exact parseInfo_arity _
  · intro line rest hf
    rw [parseMessage_dispatch hf rfl]
    exact parseCoordinates_arity _
  · intro line rest hf
    rw [parseMessage_dispatch hf rfl]
    exact parseGameStarts_arity _
  · intro line rest hf
    rw [parseMessage_dispatch hf rfl]
    exact parseDead_arity _
  · intro line rest hf
    rw [parseMessage_dispatch hf rfl]
    exact parseGameFinishes_arity _
  · intro line rest hf
    rw [parseMessage_dispatch hf rfl]
    exact parseExitRobot_arity _
  · intro line rest hf
    rw [parseMessage_dispatch hf rfl]
    exact parseYourName_arity _
  · intro line rest hf
    rw [parseMessage_dispatch hf rfl]
    exact parseYourColour_arity _
  · intro line rest hf
    rw [parseMessage_dispatch hf rfl]
    exact parseWarning_arity _

theorem decode_arity_witness :
    parseMessage ("Initialize".toList) = .error .wrongArity ∧
    parseMessage ("RotationReached 1 2".toList) = .error .wrongArity := by
  constructor
  · exact (decode_arity.1 ("Initialize".toList) [] (by decide)).mpr (by decide)
  · exact (decode_arity.2.1 ("RotationReached 1 2".toList)
      ["1".toList, "2".toList] (by decide)).mpr (by decide)

/-! ## Claim C10: every indexed access is in bounds -/

theorem parseInitializeIdx_eq (fs : List (List Char)) :
    parseInitializeIdx fs = some (parseInitialize fs) := by
  rcases fs with _ | ⟨a, _ | ⟨b, _ | ⟨c, r⟩⟩⟩ <;>
    simp [parseInitializeIdx, parseInitialize]

theorem parseYourNameIdx_eq (fs : List (List Char)) :
    parseYourNameIdx fs = some (parseYourName fs) := by
  by_cases h : fs.length < 2 <;> simp [parseYourNameIdx, parseYourName, h]

theorem parseYourColourIdx_eq (fs : List (List Char)) :
    parseYourColourIdx fs = some (parseYourColour fs) := by
  by_cases h : fs.length < 2 <;> simp [parseYourColourIdx, parseYourColour, h]

theorem parseGameOptionIdx_eq (fs : List (List Char)) :
    parseGameOptionIdx fs = some (parseGameOption fs) := by
  rcases fs with _ | ⟨a, _ | ⟨b, _ | ⟨c, _ | ⟨d, r⟩⟩⟩⟩
  · simp [parseGameOptionIdx, parseGameOption]
  · simp [parseGameOptionIdx, parseGameOption]
  · simp [parseGameOptionIdx, parseGameOption]
  · rcases hb : goParseInt b with _ | o
    · simp [parseGameOptionIdx, parseGameOption, hb]
    · rcases hc : goParseFloat c with _ | v <;>
        simp [parseGameOptionIdx, parseGameOption, hb, hc]
  · simp [parseGameOptionIdx, parseGameOption]

theorem parseGameStartsIdx_eq (fs : List (List Char)) :
    parseGameStartsIdx fs = some (parseGameStarts fs) := by
  rcases fs with _ | ⟨a, _ | ⟨b, r⟩⟩ <;> simp [parseGameStartsIdx, parseGameStarts]

theorem parseRadarIdx_eq (fs : List (List Char)) :
    parseRadarIdx fs = some (parseRadar fs) := by
  rcases fs with _ | ⟨a, _ | ⟨b, _ | ⟨c, _ | ⟨d, _ | ⟨e, r⟩⟩⟩⟩⟩
  · simp [parseRadarIdx, parseRadar]
  · simp [parseRadarIdx, parseRadar]
  · simp [parseRadarIdx, parseRadar]
  · simp [parseRadarIdx, parseRadar]
  · rcases hb : goParseFloat b with _ | v1
    · simp [parseRadarIdx, parseRadar, hb]
    · rcases hc : goParseInt c with _ | v2
      · simp [parseRadarIdx, parseRadar, hb, hc]
      · rcases hd : goParseFloat d with _ | v3 <;>
          simp [parseRadarIdx, parseRadar, hb, hc, hd]
  · simp [parseRadarIdx, parseRadar]

theorem parseInfoIdx_eq (fs : List (List Char)) :
    parseInfoIdx fs = some (parseInfo fs) := by
  rcases fs with _ | ⟨a, _ | ⟨b, _ | ⟨c, _ | ⟨d, _ | ⟨e, r⟩⟩⟩⟩⟩
  · simp [parseInfoIdx, parseInfo]
  · simp [parseInfoIdx, parseInfo]
  · simp [parseInfoIdx, parseInfo]
  · simp [parseInfoIdx, parseInfo]
  · rcases hb : goParseFloat b with _ | v1
    · simp [parseInfoIdx, parseInfo, hb]
    · rcases hc : goParseFloat c with _ | v2
      · simp [parseInfoIdx, parseInfo, hb, hc]
      · rcases hd : goParseFloat d with _ | v3 <;>
          simp [parseInfoIdx, parseInfo, hb, hc, hd]
  · simp [parseInfoIdx, parseInfo]

theorem parseCoordinatesIdx_eq (fs : List (List Char)) :
    parseCoordinatesIdx fs = some (parseCoordinates fs) := by
  rcases fs with _ | ⟨a, _ | ⟨b, _ | ⟨c, _ | ⟨d, _ | ⟨e, r⟩⟩⟩⟩⟩
  · simp [parseCoordinatesIdx, parseCoordinates]
  · simp [parseCoordinatesIdx, parseCoordinates]
  · simp [parseCoordinatesIdx, parseCoordinates]
  · simp [parseCoordinatesIdx, parseCoordinates]
  · rcases hb : goParseFloat b with _ | v1
    · simp [parseCoordinatesIdx, parseCoordinates, hb]
    · rcases hc : goParseFloat c with _ | v2
      · simp [parseCoordinatesIdx, parseCoordinates, hb, hc]
      · rcases hd : goParseFloat d with _ | v3 <;>
          simp [parseCoordinatesIdx, parseCoordinates, hb, hc, hd]
  · simp [parseCoordinatesIdx, parseCoordinates]

theorem parseRobotInfoIdx_eq (fs : List (List Char)) :
    parseRobotInfoIdx fs = some (parseRobotInfo fs) := by
  rcases fs with _ | ⟨a, _ | ⟨b, _ | ⟨c, _ | ⟨d, r⟩⟩⟩⟩
  · simp [parseRobotInfoIdx, parseRobotInfo]
  · simp [parseRobotInfoIdx, parseRobotInfo]
  · simp [parseRobotInfoIdx, parseRobotInfo]
  · rcases hb : goParseFloat b with _ | v <;> simp [parseRobotInfoIdx, parseRobotInfo, hb]
  · simp [parseRobotInfoIdx, parseRobotInfo]

theorem parseRotationReachedIdx_eq (fs : List (List Char)) :
    parseRotationReachedIdx fs = some (parseRotationReached fs) := by
  rcases fs with _ | ⟨a, _ | ⟨b, _ | ⟨c, r⟩⟩⟩
  · simp [parseRotationReachedIdx, parseRotationReached]
  · simp [parseRotationReachedIdx, parseRotationReached]
  · rcases hb : goParseInt b with _ | v <;>
      simp [parseRotationReachedIdx, parseRotationReached, hb]
  · simp [parseRotationReachedIdx, parseRotationReached]

theorem parseEnergyIdx_eq (fs : List (List Char)) :
    parseEnergyIdx fs = some (parseEnergy fs) := by
  rcases fs with _ | ⟨a, _ | ⟨b, _ | ⟨c, r⟩⟩⟩
  · simp [parseEnergyIdx, parseEnergy]
  · simp [parseEnergyIdx, parseEnergy]
  · rcases hb : goParseFloat b with _ | v <;> simp [parseEnergyIdx, parseEnergy, hb]
  · simp [parseEnergyIdx, parseEnergy]

theorem parseRobotsLeftIdx_eq (fs : List (List Char)) :
    parseRobotsLeftIdx fs = some (parseRobotsLeft fs) := by
  rcases fs with _ | ⟨a, _ | ⟨b, _ | ⟨c, r⟩⟩⟩
  · simp [parseRobotsLeftIdx, parseRobotsLeft]
  · simp [parseRobotsLeftIdx, parseRobotsLeft]
  · rcases hb : goParseInt b with _ | v <;> simp [parseRobotsLeftIdx, parseRobotsLeft, hb]
  · simp [parseRobotsLeftIdx, parseRobotsLeft]

theorem parseCollisionIdx_eq (fs : List (List Char)) :
    parseCollisionIdx fs = some (parseCollision fs) := by
  rcases fs with _ | ⟨a, _ | ⟨b, _ | ⟨c, _ | ⟨d, r⟩⟩⟩⟩
  · simp [parseCollisionIdx, parseCollision]
  · simp [parseCollisionIdx, parseCollision]
  · simp [parseCollisionIdx, parseCollision]
  · rcases hb : goParseInt b with _ | o
    · simp [parseCollisionIdx, parseCollision, hb]
    · rcases hc : goParseFloat c with _ | v <;>
        simp [parseCollisionIdx, parseCollision, hb, hc]
  · simp [parseCollisionIdx, parseCollision]

theorem parseWarningIdx_eq (fs : List (List Char)) :
    parseWarningIdx fs = some (parseWarning fs) := by
  rcases fs with _ | ⟨a, _ | ⟨b, r⟩⟩
  · simp [parseWarningIdx, parseWarning]
  · simp [parseWarningIdx, parseWarning]
  · rcases r with _ | ⟨x, t⟩ <;> rcases hb : goParseInt b with _ | w <;>
      simp [parseWarningIdx, parseWarning, hb]

theorem parseDeadIdx_eq (fs : List (List Char)) :
    parseDeadIdx fs = some (parseDead fs) := by
  rcases fs with _ | ⟨a, _ | ⟨b, r⟩⟩ <;> simp [parseDeadIdx, parseDead]

theorem parseGameFinishesIdx_eq (fs : List (List Char)) :
    parseGameFinishesIdx fs = some (parseGameFinishes fs) := by
  rcases fs with _ | ⟨a, _ | ⟨b, r⟩⟩ <;> simp [parseGameFinishesIdx, parseGameFinishes]

theorem parseExitRobotIdx_eq (fs : List (List Char)) :
    parseExitRobotIdx fs = some (parseExitRobot fs) := by
  rcases fs with _ | ⟨a, _ | ⟨b, r⟩⟩ <;> simp [parseExitRobotIdx, parseExitRobot]

/-- C10: decoding is total and memory-safe: the partial model in which
every direct slice access is a bounds-checked lookup (`parseMessageIdx`,
with `none` marking an out-of-bounds access, i.e. a Go panic) never
returns `none` — it agrees with the total decoder on every input. The
`fields[0]` access is guarded by the empty-after-trim check (a trimmed
non-empty line tokenizes to at least one token) and every parser checks
the token count before indexing its fields. -/
theorem parseMessage_total (line : List Char) :
    parseMessageIdx line = some (parseMessage line) := by
  by_cases hne : trimSpace line = []
  · simp [parseMessageIdx, parseMessage, hne]
  · obtain ⟨name, rest, hf⟩ : ∃ name rest, fields (trimSpace line) = name :: rest := by
      rcases e : fields (trimSpace line) with _ | ⟨name, rest⟩
      · exact absurd e (fields_trimSpace_ne_nil hne)
      · exact ⟨name, rest, rfl⟩
    have hidx : parseMessageIdx line =
        (match parsersIdx name with
          | none => some (.error .unknownMessage)
          | some f => f (name :: rest)) := by
      simp [parseMessageIdx, hne, hf]
    have hclean : parseMessage line =
        (match parsers name with
          | none => .error .unknownMessage
          | some f => f (name :: rest)) := by
      simp [parseMessage, hne, hf]
    rw [hidx, hclean]
    by_cases h1 : name = "Initialize".toList
    · subst h1; exact parseInitializeIdx_eq _
    by_cases h2 : name = "YourName".toList
    · subst h2; exact parseYourNameIdx_eq _
    by_cases h3 : name = "YourColour".toList
    · subst h3; exact parseYourColourIdx_eq _
    by_cases h4 : name = "GameOption".toList
    · subst h4; exact parseGameOptionIdx_eq _
    by_cases h5 : name = "GameStarts".toList
    · subst h5; exact parseGameStartsIdx_eq _
    by_cases h6 : name = "Radar".toList
    · subst h6; exact parseRadarIdx_eq _
    by_cases h7 : name = "Info".toList
    · subst h7; exact parseInfoIdx_eq _
    by_cases h8 : name = "Coordinates".toList
    · subst h8; exact parseCoordinatesIdx_eq _
    by_cases h9 : name = "RobotInfo".toList
    · subst h9; exact parseRobotInfoIdx_eq _
    by_cases h10 : name = "RotationReached".toList
    · subst h10; exact parseRotationReachedIdx_eq _
    by_cases h11 : name = "Energy".toList
    · subst h11; exact parseEnergyIdx_eq _
    by_cases h12 : name = "RobotsLeft".toList
    · subst h12; exact parseRobotsLeftIdx_eq _
    by_cases h13 : name = "Collision".toList
    · subst h13; exact parseCollisionIdx_eq _
    by_cases h14 : name = "Warning".toList
    · subst h14; exact parseWarningIdx_eq _
    by_cases h15 : name = "Dead".toList
    · subst h15; exact parseDeadIdx_eq _
    by_cases h16 : name = "GameFinishes".toList
    · subst h16; exact parseGameFinishesIdx_eq _
    by_cases h17 : name = "ExitRobot".toList
    · subst h17; exact parseExitRobotIdx_eq _
    unfold parsersIdx parsers
    rw [if_neg h1, if_neg h2, if_neg h3, if_neg h4, if_neg h5, if_neg h6, if_neg h7,
      if_neg h8, if_neg h9, if_neg h10, if_neg h11, if_neg h12, if_neg h13, if_neg h14,
      if_neg h15, if_neg h16, if_neg h17, if_neg h1, if_neg h2, if_neg h3, if_neg h4,
      if_neg h5, if_neg h6, if_neg h7, if_neg h8, if_neg h9, if_neg h10, if_neg h11,
      if_neg h12, if_neg h13, if_neg h14, if_neg h15, if_neg h16, if_neg h17]

/-! ## Decimal rendering lemmas -/

theorem natToCharsAux_congr :
    ∀ f₁ f₂ n, 0 < f₁ → 0 < f₂ → n < 10 ^ f₁ → n < 10 ^ f₂ →
      natToCharsAux f₁ n = natToCharsAux f₂ n := by
  intro f₁
  induction f₁ with
  | zero => intro f₂ n h; exact absurd h (lt_irrefl 0)
  | succ f ih =>
    intro f₂ n _ h2 hn1 hn2
    cases f₂ with
    | zero => exact absurd h2 (lt_irrefl 0)
    | succ g =>
      by_cases h10 : n < 10
      · simp [natToCharsAux, h10]
      · have hf : 0 < f := by
          by_contra hf0
          have hf1 : f = 0 := by omega
          subst hf1
          simp [pow_succ, pow_zero] at hn1
          omega
        have hg : 0 < g := by
          by_contra hg0
          have hg1 : g = 0 := by omega
          subst hg1
          simp [pow_succ, pow_zero] at hn2
          omega
        have hd1 : n / 10 < 10 ^ f := by
          rw [Nat.div_lt_iff_lt_mul (by norm_num)]
          calc n < 10 ^ (f + 1) := hn1
            _ = 10 ^ f * 10 := by rw [pow_succ]
        have hd2 : n / 10 < 10 ^ g := by
          rw [Nat.div_lt_iff_lt_mul (by norm_num)]
          calc n < 10 ^ (g + 1) := hn2
            _ = 10 ^ g * 10 := by rw [pow_succ]
        simp only [natToCharsAux, if_neg h10]
        rw [ih g (n / 10) hf hg hd1 hd2]

theorem natToChars_eq_aux (f n : Nat) (hf : 0 < f) (hn : n < 10 ^ f) :
    natToChars n = natToCharsAux f n := by
  unfold natToChars
  refine natToCharsAux_congr (n + 1) f n (by omega) hf ?_ hn
  calc n < 10 ^ n := Nat.lt_pow_self (by norm_num) n
    _ ≤ 10 ^ (n + 1) := Nat.pow_le_pow_right (by norm_num) (by omega)

theorem natToCharsAux_length :
    ∀ f n, 0 < f → n < 10 ^ f → (natToCharsAux f n).length ≤ f := by
  intro f
  induction f with
  | zero => intro n h; exact absurd h (lt_irrefl 0)
  | succ g ih =>
    intro n _ hn
    by_cases h10 : n < 10
    · simp [natToCharsAux, h10]
    · have hg : 0 < g := by
        by_contra hg0
        have hg1 : g = 0 := by omega
        subst hg1
        simp [pow_succ, pow_zero] at hn
        omega
      have hd : n / 10 < 10 ^ g := by
        rw [Nat.div_lt_iff_lt_mul (by norm_num)]
        calc n < 10 ^ (g + 1) := hn
          _ = 10 ^ g * 10 := by rw [pow_succ]
      simp only [natToCharsAux, if_neg h10, List.length_append, List.length_cons,
        List.length_nil]
      have := ih (n / 10) hg hd
      omega

theorem natToCharsAux_mem :
    ∀ f n c, c ∈ natToCharsAux f n → ∃ d, d < 10 ∧ c = digitChar d := by
  intro f
  induction f with
  | zero => intro n c hc; simp [natToCharsAux] at hc
  | succ g ih =>
    intro n c hc
    by_cases h10 : n < 10
    · simp [natToCharsAux, h10] at hc
      exact ⟨n, h10, hc⟩
    · simp only [natToCharsAux, if_neg h10, List.mem_append, List.mem_singleton] at hc
      rcases hc with hc | hc
      · exact ih _ _ hc
      · exact ⟨n % 10, Nat.mod_lt _ (by norm_num), hc⟩

theorem natToCharsAux_getLast? (f n : Nat) (hf : 0 < f) :
    ∃ d, d < 10 ∧ (natToCharsAux f n).getLast? = some (digitChar d) := by
  cases f with
  | zero => exact absurd hf (lt_irrefl 0)
  | succ g =>
    by_cases h10 : n < 10
    · exact ⟨n, h10, by simp [natToCharsAux, h10]⟩
    · refine ⟨n % 10, Nat.mod_lt _ (by norm_num), ?_⟩
      simp [natToCharsAux, h10, List.getLast?_concat]

theorem digitChar_facts (d : Nat) (hd : d < 10) :
    (digitChar d).utf8Size = 1 ∧ digitChar d ≠ '\n' ∧ (digitChar d).isDigit = true := by
  interval_cases d <;> exact ⟨by decide, by decide, by decide⟩

theorem byteLen_eq_length {l : List Char} (h : ∀ c ∈ l, c.utf8Size = 1) :
    byteLen l = l.length := by
  induction l with
  | nil => rfl
  | cons a t ih =>
    rw [show byteLen (a :: t) = a.utf8Size + byteLen t from by simp [byteLen]]
    rw [h a (by simp), ih (fun c hc => h c (by simp [hc]))]
    simp
    omega

theorem natToChars_length_le (n k : Nat) (hk : 0 < k) (hn : n < 10 ^ k) :
    (natToChars n).length ≤ k := by
  rw [natToChars_eq_aux k n hk hn]
  exact natToCharsAux_length k n hk hn

theorem natToChars_getLast? (n : Nat) :
    ∃ d, d < 10 ∧ (natToChars n).getLast? = some (digitChar d) :=
  natToCharsAux_getLast? (n + 1) n (by omega)

theorem natToChars_mem {n : Nat} {c : Char} (h : c ∈ natToChars n) :
    ∃ d, d < 10 ∧ c = digitChar d :=
  natToCharsAux_mem (n + 1) n c h

theorem natToChars_ne_nil (n : Nat) : natToChars n ≠ [] := by
  obtain ⟨d, hd, hl⟩ := natToChars_getLast? n
  intro he
  rw [he] at hl
  simp at hl

theorem byteLen_natToChars (n : Nat) :
    byteLen (natToChars n) = (natToChars n).length := by
  apply byteLen_eq_length
  intro c hc
  obtain ⟨d, hd, rfl⟩ := natToChars_mem hc
  exact (digitChar_facts d hd).1

theorem intToChars_getLast? (i : Int) :
    ∃ d, d < 10 ∧ (intToChars i).getLast? = some (digitChar d) := by
  obtain ⟨d, hd, hl⟩ := natToChars_getLast? i.natAbs
  unfold intToChars
  by_cases h : i < 0
  · refine ⟨d, hd, ?_⟩
    rw [if_pos h,
      show ('-' :: natToChars i.natAbs) = ['-'] ++ natToChars i.natAbs from rfl,
      List.getLast?_append, hl]
    rfl
  · rw [if_neg h]
    exact ⟨d, hd, hl⟩

theorem intToChars_length_le (i : Int) (k : Nat) (hk : 0 < k)
    (h : i.natAbs < 10 ^ k) : (intToChars i).length ≤ k + 1 := by
  unfold intToChars
  have hlen := natToChars_length_le i.natAbs k hk h
  by_cases hneg : i < 0
  · rw [if_pos hneg]
    simp only [List.length_cons]
    omega
  · rw [if_neg hneg]
    omega

theorem byteLen_intToChars (i : Int) :
    byteLen (intToChars i) = (intToChars i).length := by
  apply byteLen_eq_length
  intro c hc
  unfold intToChars at hc
  by_cases hneg : i < 0
  · rw [if_pos hneg] at hc
    rcases List.mem_cons.mp hc with rfl | hc'
    · decide
    · obtain ⟨d, hd, rfl⟩ := natToChars_mem hc'
      exact (digitChar_facts d hd).1
  · rw [if_neg hneg] at hc
    obtain ⟨d, hd, rfl⟩ := natToChars_mem hc
    exact (digitChar_facts d hd).1

/-! ## Claim C8 -/

theorem listenLoop_no_write (lines : List (List Char)) :
    ∀ e ∈ listenLoop lines, e = Event.closeChan ∨ ∃ m, e = Event.deliver m := by
  induction lines with
  | nil =>
    intro e he
    simp [listenLoop] at he
    subst he
    exact Or.inl rfl
  | cons l rest ih =>
    intro e he
    cases h : parseMessage l with
    | error err =>
      simp only [listenLoop, h] at he
      exact ih e he
    | ok m =>
      simp only [listenLoop, h, List.mem_cons] at he
      rcases he with rfl | he'
      · exact Or.inr ⟨m, rfl⟩
      · exact ih e he'

/-- C8: for every setting (with the rotation-notification value in the
range of a Go 64-bit int) and every input, `Listen` first writes the
blocking-mode declaration `RobotOption 3 0` and then the
rotation-notification declaration `RobotOption 1 <SendRotationReached>`,
synchronously, before any message is delivered: the reader-loop segment
that follows contains only deliveries and the channel close, never a
write. -/
theorem listen_bootstrap (settings : ListenSettings) (lines : List (List Char))
    (hrange : settings.sendRotationReached.natAbs < 2 ^ 63) :
    listen settings lines =
      .write ("RobotOption 3 0\n".toList) ::
        .write ("RobotOption 1 ".toList ++
          intToChars settings.sendRotationReached ++ ['\n']) ::
          listenLoop lines ∧
    ∀ e ∈ listenLoop lines, e = Event.closeChan ∨ ∃ m, e = Event.deliver m := by
  refine ⟨?_, listenLoop_no_write lines⟩
  have w1 : writeEvents (robotOption 3 0) = [Event.write ("RobotOption 3 0\n".toList)] := by
    decide
  have hline : robotOption 1 settings.sendRotationReached =
      rawf ("RobotOption 1 ".toList ++ intToChars settings.sendRotationReached) := by
    unfold robotOption
    rw [show ("RobotOption ".toList ++ intToChars 1) ++ [' '] =
      "RobotOption 1 ".toList from by decide]
  obtain ⟨d, hd, hlast⟩ := intToChars_getLast? settings.sendRotationReached
  have hnl : ("RobotOption 1 ".toList ++
      intToChars settings.sendRotationReached).getLast? ≠ some '\n' := by
    rw [List.getLast?_append, hlast]
    intro hcontra
    simp at hcontra
    exact (digitChar_facts d hd).2.1 hcontra
  have hlen : byteLen ("RobotOption 1 ".toList ++
      intToChars settings.sendRotationReached) ≤ 34 := by
    rw [byteLen_append, byteLen_intToChars]
    have h19 : settings.sendRotationReached.natAbs < 10 ^ 19 :=
      lt_of_lt_of_le hrange (by norm_num)
    have := intToChars_length_le settings.sendRotationReached 19 (by norm_num) h19
    rw [show byteLen ("RobotOption 1 ".toList) = 14 from by decide]
    omega
  have w2 : writeEvents (robotOption 1 settings.sendRotationReached) =
      [Event.write (("RobotOption 1 ".toList ++
        intToChars settings.sendRotationReached) ++ ['\n'])] := by
    rw [hline]
    unfold rawf
    rw [if_neg hnl, if_neg (by
      rw [byteLen_append, show byteLen ['\n'] = 1 from by decide]
      omega)]
    rfl
  unfold listen
  rw [w1, w2]
  rfl

theorem listen_bootstrap_witness :
    listen ⟨2, 0⟩ ["GameStarts".toList] =
      [Event.write ("RobotOption 3 0\n".toList),
        Event.write ("RobotOption 1 2\n".toList),
        Event.deliver .MessageGameStarts, Event.closeChan] := by
  have h := (listen_bootstrap ⟨2, 0⟩ ["GameStarts".toList] (by decide)).1
  rw [h]
  decide

/-! ## Claim C9 -/

/-- C9: the `Brake` command encodes the wire keyword `Break` (not
`Brake`): every successful encode writes exactly `"Break "` followed by
the portion formatted by `fmtFloat6` (scale by 10^6, round to nearest
with exact ties to even as `strconv`'s fixed-precision formatting does)
and a trailing newline, and the formatted number always ends in `'.'`
followed by exactly six decimal digits. -/
theorem brake_writes_break (q : ℚ) :
    (∀ out, Brake q = .ok out →
      out = "Break ".toList ++ fmtFloat6 q ++ ['\n']) ∧
    ∃ intPart fracPart, fmtFloat6 q = intPart ++ '.' :: fracPart ∧
      fracPart.length = 6 ∧ fracPart.all Char.isDigit = true := by
  have hu : fmtFloat6 q =
      (if q.num < 0 then ['-'] else []) ++
        natToChars ((roundEven6 q).natAbs / 1000000) ++ ['.'] ++
        (List.replicate (6 - (natToChars ((roundEven6 q).natAbs % 1000000)).length) '0' ++
          natToChars ((roundEven6 q).natAbs % 1000000)) := rfl
  generalize hN : roundEven6 q = n at hu
  obtain ⟨d, hd, hfr⟩ := natToChars_getLast? (n.natAbs % 1000000)
  have hfmtLast : (fmtFloat6 q).getLast? = some (digitChar d) := by
    rw [hu, List.getLast?_append, List.getLast?_append, hfr]
    rfl
  have hm6 : n.natAbs % 1000000 < 10 ^ 6 := by
    have := Nat.mod_lt n.natAbs (show 0 < 1000000 by norm_num)
    omega
  constructor
  · intro out hout
    have hnl : ("Break ".toList ++ fmtFloat6 q).getLast? ≠ some '\n' := by
      rw [List.getLast?_append, hfmtLast]
      intro hcontra
      simp at hcontra
      exact (digitChar_facts d hd).2.1 hcontra
    unfold Brake rawf at hout
    rw [if_neg hnl] at hout
    by_cases hbig : 128 < byteLen (("Break ".toList ++ fmtFloat6 q) ++ ['\n'])
    · rw [if_pos hbig] at hout
      cases hout
    · rw [if_neg hbig] at hout
      injection hout with hinj
      exact hinj.symm
  · refine ⟨(if q.num < 0 then ['-'] else []) ++ natToChars (n.natAbs / 1000000),
      List.replicate (6 - (natToChars (n.natAbs % 1000000)).length) '0' ++
        natToChars (n.natAbs % 1000000), ?_, ?_, ?_⟩
    · rw [hu]
      simp [List.append_assoc]
    · have h6 := natToChars_length_le (n.natAbs % 1000000) 6 (by norm_num) hm6
      simp only [List.length_append, List.length_replicate]
      omega
    · rw [List.all_append, Bool.and_eq_true]
      constructor
      · simp only [List.all_eq_true]
        intro c hc
        rw [List.eq_of_mem_replicate hc]
        decide
      · simp only [List.all_eq_true]
        intro c hc
        obtain ⟨d', hd', rfl⟩ := natToChars_mem hc
        exact (digitChar_facts d' hd').2.2

theorem brake_writes_break_witness :
    "Break 0.000000\n".toList = "Break ".toList ++ fmtFloat6 0 ++ ['\n'] ∧
    fmtFloat6 (⟨1, 128, by decide, Nat.coprime_one_left 128⟩ : ℚ) = ("0.007812".toList) ∧
    fmtFloat6 (⟨3, 128, by decide, by norm_num⟩ : ℚ) = ("0.023438".toList) ∧
    fmtFloat6 (⟨-1, 128, by decide, by norm_num⟩ : ℚ) = ("-0.007812".toList) :=
  ⟨(brake_writes_break 0).1 ("Break 0.000000\n".toList) (by decide),
    by decide, by decide, by decide⟩

end RTB
